import Mathlib

/-!
# Verification of the focus-management core

A shallow embedding of the `@a11ytools/focus-management` sources:

* `isFocusable` / `isTabbable`    (src/isFocusable.ts)
* `getFocusableElements`          (src/getFocusableElements.ts)
* `focusFirstElement` / `focusFirstElementBySelector` (src/focusFirstElement.ts)
* `saveFocus` / `returnFocus` / `createFocusManager`  (src/returnFocus.ts)
* the keydown handler of `useFocusTrap`               (src/useFocusTrap.ts)

DOM elements are modelled as records carrying the data the library reads
(attributes, inline style, disabled flag, connectedness) together with the
explicit `parentElement` chain.  A container is a tree of query results and
open shadow roots.  Focus side effects are modelled by threading the
document's active element explicitly and by a `FocusBehavior` environment
describing, per element, whether a `focus()` call succeeds, silently fails,
or throws.
-/

namespace FocusManagement

/-- The data the library reads off a single DOM element: tag name, attribute
list (first binding wins, as in the DOM), the inline `style.display` /
`style.visibility` values (empty string when unset), the reflected `disabled`
property, and `isConnected`.  `eid` is a node identity so that distinct DOM
nodes are distinct model values. -/
structure ElemData where
  eid : Nat
  tag : String
  attrs : List (String × String) := []
  styleDisplay : String := ""
  styleVisibility : String := ""
  disabled : Bool := false
  isConnected : Bool := true
deriving DecidableEq, Repr

/-- An element together with its `parentElement` chain, nearest ancestor
first.  The chain is what the ancestor loop of `isFocusable` walks. -/
structure Elem where
  data : ElemData
  ancestors : List ElemData := []
deriving DecidableEq, Repr

/-- Model of `element.getAttribute(name)`: the first binding of `name`, or `null`. -/
def getAttributeOf (d : ElemData) (name : String) : Option String :=
  (d.attrs.find? (fun p => p.1 == name)).map Prod.snd

/-- Model of `element.hasAttribute(name)`. -/
def hasAttributeOf (d : ElemData) (name : String) : Bool :=
  (getAttributeOf d name).isSome

/-- The reflected `HTMLInputElement.type` property: the `type` attribute,
defaulting to `"text"` when absent. -/
def inputTypeOf (d : ElemData) : String :=
  (getAttributeOf d "type").getD "text"

/-- Leading-digit run of a character list as a natural number, `none` when
the run is empty. -/
def digitsToNat (cs : List Char) : Option Nat :=
  let ds := cs.takeWhile Char.isDigit
  if ds.isEmpty then none
  else some (ds.foldl (fun acc c => acc * 10 + (c.toNat - 48)) 0)

/-- JavaScript `parseInt(s, 10)`: skip leading whitespace, read an optional
sign, then the longest digit prefix; `none` models `NaN`. -/
def jsParseInt (s : String) : Option Int :=
  let cs := s.toList.dropWhile (fun c => c == ' ' || c == '\t' || c == '\n' || c == '\r')
  match cs with
  | '-' :: rest => (digitsToNat rest).map (fun n => -(n : Int))
  | '+' :: rest => (digitsToNat rest).map (fun n => (n : Int))
  | _ => (digitsToNat cs).map (fun n => (n : Int))

/-- Whether a character is JavaScript string whitespace (the forms relevant
here). -/
def isJsSpace (c : Char) : Bool :=
  c == ' ' || c == '\t' || c == '\n' || c == '\r'

/-- Value of an all-digit character list. -/
def digitsVal (ds : List Char) : Int :=
  ((ds.foldl (fun acc c => acc * 10 + (c.toNat - 48)) 0 : Nat) : Int)

/-- JavaScript `Number(s)` restricted to strings denoting integers (the form
`tabindex` takes in HTML): whitespace-only is `0`; otherwise an optional sign
followed by digits making up the whole trimmed string; `none` models `NaN`. -/
def jsNumberInt (s : String) : Option Int :=
  let cs := (s.toList.dropWhile isJsSpace).reverse.dropWhile isJsSpace |>.reverse
  if cs.isEmpty then some 0
  else
    match cs with
    | '-' :: ds => if !ds.isEmpty && ds.all Char.isDigit then some (-(digitsVal ds)) else none
    | '+' :: ds => if !ds.isEmpty && ds.all Char.isDigit then some (digitsVal ds) else none
    | ds => if !ds.isEmpty && ds.all Char.isDigit then some (digitsVal ds) else none

/-- ASCII lowercasing of one character. -/
def toLowerAscii (c : Char) : Char :=
  if 'A' ≤ c && c ≤ 'Z' then Char.ofNat (c.toNat + 32) else c

/-- Model of `tagName.toLowerCase()` for the ASCII tag names the library switches on. -/
def lowerStr (s : String) : String :=
  ⟨s.data.map toLowerAscii⟩

/-- The hidden checks `isFocusable` applies to one node: the `hidden`
attribute, inline `display: none`, inline `visibility: hidden`. -/
def hiddenByAttrOrStyle (d : ElemData) : Bool :=
  hasAttributeOf d "hidden" || d.styleDisplay == "none" || d.styleVisibility == "hidden"

/-- One step of the ancestor loop in `isFocusable` (isFocusable.ts lines
52–63): `aria-hidden="true"`, the `hidden` attribute, or a hiding inline
style on the ancestor. -/
def ancestorHides (p : ElemData) : Bool :=
  getAttributeOf p "aria-hidden" == some "true" || hiddenByAttrOrStyle p

/-- Translation of `isFocusable(element)` from src/isFocusable.ts, translated branch by
branch: null check, `isConnected`, literal `tabindex === "-1"`, own hidden
markers, own `aria-hidden`, `disabled`, the ancestor walk, the non-negative
parsed tabindex shortcut, then the tag switch. -/
def isFocusable : Option Elem → Bool
  | none => false
  | some e =>
    let d := e.data
    if !d.isConnected then false
    else if getAttributeOf d "tabindex" == some "-1" then false
    else if hiddenByAttrOrStyle d then false
    else if getAttributeOf d "aria-hidden" == some "true" then false
    else if d.disabled then false
    else if e.ancestors.any ancestorHides then false
    else
      let tagName := lowerStr d.tag
      let tabIndexFocusable :=
        match getAttributeOf d "tabindex" with
        | none => false
        | some ti =>
          if ti ≠ "-1" then
            match jsParseInt ti with
            | some parsed => decide (parsed ≥ 0)
            | none => false
          else false
      if tabIndexFocusable then true
      else if tagName == "a" || tagName == "area" then hasAttributeOf d "href"
      else if tagName == "input" then inputTypeOf d != "hidden"
      else if tagName == "textarea" || tagName == "select" || tagName == "summary"
              || tagName == "button" then true
      else if tagName == "audio" || tagName == "video" then hasAttributeOf d "controls"
      else if tagName == "details" then hasAttributeOf d "open"
      else getAttributeOf d "contenteditable" == some "true"

/-- Translation of `isTabbable(element)` from src/isFocusable.ts: focusable, not
`tabindex="-1"`, links/areas need `href`, inputs not disabled and not
`type="hidden"`, buttons/selects/textareas not disabled. -/
def isTabbable (oe : Option Elem) : Bool :=
  if !isFocusable oe then false
  else
    match oe with
    | none => false
    | some e =>
      if getAttributeOf e.data "tabindex" == some "-1" then false
      else
        let tagName := lowerStr e.data.tag
        if tagName == "a" || tagName == "area" then hasAttributeOf e.data "href"
        else if tagName == "input" then !e.data.disabled && inputTypeOf e.data != "hidden"
        else if tagName == "button" || tagName == "select" || tagName == "textarea" then
          !e.data.disabled
        else true

/-! ## Enumerator: `getFocusableElements` (src/getFocusableElements.ts) -/

/-- Options of `getFocusableElements`. -/
structure GetFocusableElementsOptions where
  onlyTabbable : Bool := false
  includeShadowDOM : Bool := true
deriving DecidableEq, Repr

/-- A container as the enumerator observes it: the document-order result of
`querySelectorAll(POTENTIALLY_FOCUSABLE_SELECTORS)` on it, the open shadow
roots of its descendants in document order, and whether traversing it throws
(a hostile or partial container object). -/
inductive DomTree where
  | node (candidates : List Elem) (shadowRoots : List DomTree) (throws : Bool)

/-- Model of `Number(element.getAttribute('tabindex') || '0')` from the sort
comparator; `none` models `NaN`. -/
def tabIndexNumber (e : Elem) : Option Int :=
  match getAttributeOf e.data "tabindex" with
  | none => some 0
  | some s => if s == "" then some 0 else jsNumberInt s

/-- Whether a comparator operand is `> 0` (false for `NaN`). -/
def gtZero : Option Int → Bool
  | some n => decide (0 < n)
  | none => false

/-- The comparator passed to `Array.prototype.sort` in
`getFocusableElements` (lines 108–123): positive tab indices ascending and
ahead of everything else, ties and the non-positive bucket left in place. -/
def sortComparator (a b : Elem) : Int :=
  let aTabIndex := tabIndexNumber a
  let bTabIndex := tabIndexNumber b
  if gtZero aTabIndex && gtZero bTabIndex then aTabIndex.getD 0 - bTabIndex.getD 0
  else if gtZero aTabIndex then -1
  else if gtZero bTabIndex then 1
  else 0

/-- Insert `x` into `l` before the first element `y` with
`sortComparator x y ≤ 0`.  Folding this over a list realises the stable
comparison sort that ECMAScript guarantees for `Array.prototype.sort`, for
the consistent comparator above. -/
def stableInsert (x : Elem) : List Elem → List Elem
  | [] => [x]
  | y :: ys => if sortComparator x y ≤ 0 then x :: y :: ys else y :: stableInsert x ys

/-- Stable sort by `sortComparator`, modelling
`focusableElements.sort(comparator)`. -/
def sortByTabIndex : List Elem → List Elem
  | [] => []
  | x :: xs => stableInsert x (sortByTabIndex xs)

/-- The filter predicate chosen at line 76: `isTabbable` when `onlyTabbable`,
else `isFocusable`. -/
def enumPred (opts : GetFocusableElementsOptions) (e : Elem) : Bool :=
  if opts.onlyTabbable then isTabbable (some e) else isFocusable (some e)

mutual
/-- The `try` body of `getFocusableElements` on a non-null container in a
browser context: query candidates, recurse into open shadow roots when
`includeShadowDOM`, filter by the classifier, sort.  A throwing traversal is
caught and yields `[]` (lines 124–128). -/
def getFocusableElementsTree : DomTree → GetFocusableElementsOptions → List Elem
  | .node candidates shadowRoots throws, opts =>
    if throws then []
    else
      let combined :=
        if opts.includeShadowDOM then candidates ++ gatherShadow shadowRoots opts
        else candidates
      sortByTabIndex (combined.filter (enumPred opts))

/-- The loop at lines 93–101: recursively enumerate each open shadow root,
appending results in order. -/
def gatherShadow : List DomTree → GetFocusableElementsOptions → List Elem
  | [], _ => []
  | s :: rest, opts => getFocusableElementsTree s opts ++ gatherShadow rest opts
end

/-- Translation of `getFocusableElements(container, options)`: `[]` for a null container and
outside a browser (`documentDefined = false`); otherwise the guarded
traversal.  The recursive shadow-root calls always have a non-null container
and the same environment, so they are the tree function directly. -/
def getFocusableElements (documentDefined : Bool) (container : Option DomTree)
    (opts : GetFocusableElementsOptions) : List Elem :=
  match container with
  | none => []
  | some t => if !documentDefined then [] else getFocusableElementsTree t opts

/-! ## Focus side effects

A `focus()` call on an element either makes it the active element, silently
fails (the document's active element is unchanged), or throws.  The
per-element outcome is an environment the DOM supplies. -/

/-- Outcome of `element.focus()` in the host DOM. -/
inductive FocusOutcome where
  | success
  | silentFail
  | throws
deriving DecidableEq, Repr

/-- The DOM's focusing behaviour: what `e.focus()` does, per element. -/
def FocusBehavior := Elem → FocusOutcome

/-! ## Focus-State Keeper (src/returnFocus.ts) -/

/-- Options record `ReturnFocusOptions`: `fallbackElement` distinguishes "absent" (the
destructuring default `document.body` applies) from an explicit `null`. -/
structure ReturnFocusOptions where
  preventScroll : Option Bool := none
  fallbackElement : Option (Option Elem) := none

/-- The mutable state a save/restore pair acts on: the module-level
`savedFocusElement` slot and `document.activeElement`. -/
structure FMState where
  saved : Option Elem := none
  active : Option Elem := none
deriving DecidableEq, Repr

/-- Running `e.focus()` under `behavior`, given the current active element: `none`
models a thrown exception, otherwise the new active element. -/
def doFocus (behavior : FocusBehavior) (e : Elem) (active : Option Elem) :
    Option (Option Elem) :=
  match behavior e with
  | .throws => none
  | .silentFail => some active
  | .success => some (some e)

/-- Translation of `saveFocus()` (returnFocus.ts lines 40–48): store
`document.activeElement` in the slot and return it; `null` outside a
browser. -/
def saveFocus (documentDefined : Bool) (st : FMState) : Option Elem × FMState :=
  if !documentDefined then (none, st)
  else (st.active, { st with saved := st.active })

/-- Translation of `returnFocus(options)` (returnFocus.ts lines 67–117), branch by branch.
The result is `none` for an exception escaping the call (only possible from
the unguarded `fallbackElement?.focus()` on the empty-slot path), otherwise
`some (returned element, new state)`.

* empty slot: focus the fallback (optional chaining) and return it;
* saved element: inside `try`, focus it; if `document.activeElement` now
  equals it, clear the slot and return it; else focus the fallback and
  return it **without touching the slot**; a thrown exception reaches the
  `catch`, which tries the fallback again and also returns it without
  touching the slot; only falling off both blocks clears the slot and
  returns `null`. -/
def returnFocus (documentDefined : Bool) (behavior : FocusBehavior)
    (body : Option Elem) (options : ReturnFocusOptions) (st : FMState) :
    Option (Option Elem × FMState) :=
  if !documentDefined then some (none, st)
  else
    let fallbackElement : Option Elem := options.fallbackElement.getD body
    match st.saved with
    | none =>
      match fallbackElement with
      | none => some (none, st)
      | some f =>
        match doFocus behavior f st.active with
        | none => none
        | some a => some (some f, { st with active := a })
    | some sv =>
      match doFocus behavior sv st.active with
      | none =>
        -- saved.focus() threw: the catch block tries the fallback once,
        -- inside its own try/catch
        match fallbackElement with
        | none => some (none, { saved := none, active := st.active })
        | some f =>
          match doFocus behavior f st.active with
          | none => some (none, { saved := none, active := st.active })
          | some a => some (some f, { saved := some sv, active := a })
      | some a =>
        if a == some sv then
          some (some sv, { saved := none, active := a })
        else
          match fallbackElement with
          | none => some (none, { saved := none, active := a })
          | some f =>
            match doFocus behavior f a with
            | none =>
              -- the in-try fallback focus threw; the catch block retries it
              match doFocus behavior f a with
              | none => some (none, { saved := none, active := a })
              | some a2 => some (some f, { saved := some sv, active := a2 })
            | some a2 => some (some f, { saved := some sv, active := a2 })

/-- The `saveFocus` closure returned by `createFocusManager()`
(returnFocus.ts lines 144–151), acting on the manager's private slot. -/
def managerSaveFocus (documentDefined : Bool) (st : FMState) : Option Elem × FMState :=
  if !documentDefined then (none, st)
  else (st.active, { st with saved := st.active })

/-- The `returnFocus` closure returned by `createFocusManager()`
(returnFocus.ts lines 156–199), acting on the manager's private slot. -/
def managerReturnFocus (documentDefined : Bool) (behavior : FocusBehavior)
    (body : Option Elem) (options : ReturnFocusOptions) (st : FMState) :
    Option (Option Elem × FMState) :=
  if !documentDefined then some (none, st)
  else
    let fallbackElement : Option Elem := options.fallbackElement.getD body
    match st.saved with
    | none =>
      match fallbackElement with
      | none => some (none, st)
      | some f =>
        match doFocus behavior f st.active with
        | none => none
        | some a => some (some f, { st with active := a })
    | some sv =>
      match doFocus behavior sv st.active with
      | none =>
        match fallbackElement with
        | none => some (none, { saved := none, active := st.active })
        | some f =>
          match doFocus behavior f st.active with
          | none => some (none, { saved := none, active := st.active })
          | some a => some (some f, { saved := some sv, active := a })
      | some a =>
        if a == some sv then
          some (some sv, { saved := none, active := a })
        else
          match fallbackElement with
          | none => some (none, { saved := none, active := a })
          | some f =>
            match doFocus behavior f a with
            | none =>
              match doFocus behavior f a with
              | none => some (none, { saved := none, active := a })
              | some a2 => some (some f, { saved := some sv, active := a2 })
            | some a2 => some (some f, { saved := some sv, active := a2 })

/-! ## First-Focus Director (src/focusFirstElement.ts) -/

/-- Options of `focusFirstElement`. -/
structure FocusFirstElementOptions where
  onlyTabbable : Bool := true
  includeShadowDOM : Bool := true
  preventScroll : Bool := true
deriving DecidableEq, Repr

/-- Translation of `focusFirstElement(container, options)` (lines 43–81): enumerate, focus
element zero; return it unless the focus call throws — the result is **not**
verified against `document.activeElement`.  Returns the reported element and
the new active element. -/
def focusFirstElement (documentDefined : Bool) (behavior : FocusBehavior)
    (container : Option DomTree) (options : FocusFirstElementOptions)
    (active : Option Elem) : Option Elem × Option Elem :=
  match container with
  | none => (none, active)
  | some _ =>
    if !documentDefined then (none, active)
    else
      let elements := getFocusableElements documentDefined container
        { onlyTabbable := options.onlyTabbable,
          includeShadowDOM := options.includeShadowDOM }
      match elements with
      | [] => (none, active)
      | e :: _ =>
        match behavior e with
        | .throws => (none, active)
        | .silentFail => (some e, active)
        | .success => (some e, some e)

/-- The candidate loop of `focusFirstElementBySelector` (lines 121–134):
focus each element in document order until one verifiably becomes
`document.activeElement`; a throwing `focus()` moves on to the next
candidate. -/
def bySelectorLoop (behavior : FocusBehavior) :
    List Elem → Option Elem → Option Elem × Option Elem
  | [], active => (none, active)
  | e :: rest, active =>
    match behavior e with
    | .throws => bySelectorLoop behavior rest active
    | .silentFail =>
      if active == some e then (some e, active) else bySelectorLoop behavior rest active
    | .success => (some e, some e)

/-- Translation of `focusFirstElementBySelector(container, selector, options)` (lines
99–139).  `queryResult` is the outcome of
`container.querySelectorAll(selector)`; `Except.error` models a throwing
query, caught by the outer `try`. -/
def focusFirstElementBySelector (documentDefined : Bool) (behavior : FocusBehavior)
    (containerPresent : Bool) (selector : String)
    (queryResult : Except Unit (List Elem)) (active : Option Elem) :
    Option Elem × Option Elem :=
  if !containerPresent || selector == "" then (none, active)
  else if !documentDefined then (none, active)
  else
    match queryResult with
    | .error _ => (none, active)
    | .ok elements => bySelectorLoop behavior elements active

/-! ## Trap Controller keydown handler (src/useFocusTrap.ts lines 116–165) -/

/-- What the handler focused, if anything. -/
inductive FocusTarget where
  | container
  | elem (e : Elem)
deriving DecidableEq, Repr

/-- Observable outcome of one keydown dispatch. -/
structure KeydownResult where
  defaultPrevented : Bool := false
  focused : Option FocusTarget := none
  escapeCalled : Bool := false
deriving DecidableEq, Repr

/-- Translation of `handleKeyDown` of `useFocusTrap`: ignore events when inactive or
unbound; `Escape` with a callback invokes it; other non-Tab keys pass
through; on Tab, re-enumerate tabbable elements — none: prevent default and
focus the container; Shift+Tab on the first wraps to the last; Tab on the
last wraps to the first; anything else is left to the browser. -/
def handleKeyDown (active : Bool) (container : Option DomTree)
    (hasOnEscapeKey : Bool) (key : String) (shiftKey : Bool)
    (activeElement : Option Elem) : KeydownResult :=
  if !active || container.isNone then {}
  else if key == "Escape" && hasOnEscapeKey then { escapeCalled := true }
  else if key != "Tab" then {}
  else
    let tabbableElements := getFocusableElements true container { onlyTabbable := true }
    match tabbableElements with
    | [] => { defaultPrevented := true, focused := some .container }
    | firstElement :: rest =>
      let lastElement := (firstElement :: rest).getLast (by simp)
      if shiftKey then
        if activeElement == some firstElement then
          { defaultPrevented := true, focused := some (.elem lastElement) }
        else {}
      else
        if activeElement == some lastElement then
          { defaultPrevented := true, focused := some (.elem firstElement) }
        else {}

/-! ## Facts about the enumerator's sort -/

/-- Membership in the "implicit or zero (or invalid) tab index" bucket of the
sort comparator. -/
def nonPosKey (e : Elem) : Bool :=
  !gtZero (tabIndexNumber e)

/-- The total preorder realised by `sortComparator`: positive tab indices
ascending, everything else in one final bucket. -/
def keyLe (a b : Elem) : Bool :=
  if gtZero (tabIndexNumber a) then
    if gtZero (tabIndexNumber b) then
      decide ((tabIndexNumber a).getD 0 ≤ (tabIndexNumber b).getD 0)
    else true
  else !gtZero (tabIndexNumber b)

theorem sortComparator_nonpos_iff (a b : Elem) :
    sortComparator a b ≤ 0 ↔ keyLe a b = true := by
  unfold sortComparator keyLe
  cases hga : gtZero (tabIndexNumber a) <;> cases hgb : gtZero (tabIndexNumber b) <;>
    simp [hga, hgb] <;> omega

theorem keyLe_total (a b : Elem) : keyLe a b = true ∨ keyLe b a = true := by
  unfold keyLe
  cases hga : gtZero (tabIndexNumber a) <;> cases hgb : gtZero (tabIndexNumber b) <;>
    simp [hga, hgb] <;> omega

theorem keyLe_trans {a b c : Elem} (hab : keyLe a b = true) (hbc : keyLe b c = true) :
    keyLe a c = true := by
  unfold keyLe at *
  cases hga : gtZero (tabIndexNumber a) <;> cases hgb : gtZero (tabIndexNumber b) <;>
    cases hgc : gtZero (tabIndexNumber c) <;> simp_all <;> omega

theorem mem_stableInsert {y x : Elem} {l : List Elem} :
    y ∈ stableInsert x l ↔ y = x ∨ y ∈ l := by
  induction l with
  | nil => simp [stableInsert]
  | cons z zs ih =>
    rw [stableInsert]
    split
    · simp
    · simp only [List.mem_cons, ih]
      tauto

theorem mem_sortByTabIndex {y : Elem} {l : List Elem} :
    y ∈ sortByTabIndex l ↔ y ∈ l := by
  induction l with
  | nil => simp [sortByTabIndex]
  | cons x xs ih => rw [sortByTabIndex]; simp [mem_stableInsert, ih]

theorem pairwise_stableInsert {x : Elem} {l : List Elem}
    (h : l.Pairwise (fun a b => keyLe a b = true)) :
    (stableInsert x l).Pairwise (fun a b => keyLe a b = true) := by
  induction l with
  | nil => simp [stableInsert]
  | cons y ys ih =>
    rw [stableInsert]
    rcases List.pairwise_cons.mp h with ⟨hy, hys⟩
    split
    · rename_i hc
      have hxy : keyLe x y = true := (sortComparator_nonpos_iff x y).mp hc
      refine List.pairwise_cons.mpr ⟨?_, h⟩
      intro z hz
      rcases List.mem_cons.mp hz with rfl | hz
      · exact hxy
      · exact keyLe_trans hxy (hy z hz)
    · rename_i hc
      have hyx : keyLe y x = true := by
        rcases keyLe_total x y with hxy | hyx
        · exact absurd ((sortComparator_nonpos_iff x y).mpr hxy) hc
        · exact hyx
      refine List.pairwise_cons.mpr ⟨?_, ih hys⟩
      intro z hz
      rcases mem_stableInsert.mp hz with rfl | hz
      · exact hyx
      · exact hy z hz

theorem pairwise_sortByTabIndex (l : List Elem) :
    (sortByTabIndex l).Pairwise (fun a b => keyLe a b = true) := by
  induction l with
  | nil => simp [sortByTabIndex]
  | cons x xs ih => rw [sortByTabIndex]; exact pairwise_stableInsert ih

theorem filter_nonPosKey_stableInsert (x : Elem) (l : List Elem) :
    (stableInsert x l).filter nonPosKey =
      if nonPosKey x then x :: l.filter nonPosKey else l.filter nonPosKey := by
  induction l with
  | nil => cases hx : nonPosKey x <;> simp [stableInsert, List.filter, hx]
  | cons y ys ih =>
    rw [stableInsert]
    cases hx : nonPosKey x <;> cases hy : nonPosKey y <;>
      unfold nonPosKey at hx hy <;>
      split <;>
      rename_i hc <;>
      first
      | (exfalso
         revert hc
         unfold sortComparator
         simp_all <;> omega)
      | (simp only [List.filter, nonPosKey] at *
         simp_all)

theorem filter_nonPosKey_sortByTabIndex (l : List Elem) :
    (sortByTabIndex l).filter nonPosKey = l.filter nonPosKey := by
  induction l with
  | nil => rfl
  | cons x xs ih =>
    rw [sortByTabIndex, filter_nonPosKey_stableInsert]
    cases hx : nonPosKey x <;> simp [List.filter, hx, ih]

/-- The combined candidate list of one enumerator call: query results plus,
when `includeShadowDOM`, the recursively gathered shadow results. -/
def enumCombined : DomTree → GetFocusableElementsOptions → List Elem
  | .node candidates shadowRoots _, opts =>
    if opts.includeShadowDOM then candidates ++ gatherShadow shadowRoots opts
    else candidates

/-- The list handed to `.sort(...)` by one enumerator call: the combined
candidates filtered through the classifier ( `[]` when traversal throws). -/
def enumPreSort : DomTree → GetFocusableElementsOptions → List Elem
  | t@(.node _ _ throws), opts =>
    if throws then [] else (enumCombined t opts).filter (enumPred opts)

theorem getFocusableElementsTree_eq_sort (t : DomTree)
    (opts : GetFocusableElementsOptions) :
    getFocusableElementsTree t opts = sortByTabIndex (enumPreSort t opts) := by
  cases t with
  | node candidates shadowRoots throws =>
    rw [getFocusableElementsTree, enumPreSort, enumCombined]
    cases throws <;> simp [sortByTabIndex]

/-- The pre-sort list of a full `getFocusableElements` call. -/
def enumPreSortOf (documentDefined : Bool) (container : Option DomTree)
    (opts : GetFocusableElementsOptions) : List Elem :=
  match container with
  | none => []
  | some t => if !documentDefined then [] else enumPreSort t opts

theorem getFocusableElements_eq_sort (documentDefined : Bool)
    (container : Option DomTree) (opts : GetFocusableElementsOptions) :
    getFocusableElements documentDefined container opts
      = sortByTabIndex (enumPreSortOf documentDefined container opts) := by
  cases container with
  | none => rfl
  | some t =>
    cases documentDefined <;>
      simp [getFocusableElements, enumPreSortOf, getFocusableElementsTree_eq_sort,
        sortByTabIndex]

theorem pairwise_getFocusableElements (documentDefined : Bool)
    (container : Option DomTree) (opts : GetFocusableElementsOptions) :
    (getFocusableElements documentDefined container opts).Pairwise
      (fun a b => keyLe a b = true) := by
  rw [getFocusableElements_eq_sort]
  exact pairwise_sortByTabIndex _

/-- C3 --- every element returned by `getFocusableElements` passes, under the
same options, the classifier the call selected: `isTabbable` when
`onlyTabbable` is set, `isFocusable` otherwise.  Shadow-gathered elements are
included: the filter at getFocusableElements.ts line 105 runs on the
combined list. -/
theorem C3_enumerator_respects_classifier (documentDefined : Bool)
    (container : Option DomTree) (opts : GetFocusableElementsOptions) (e : Elem)
    (he : e ∈ getFocusableElements documentDefined container opts) :
    (opts.onlyTabbable = true → isTabbable (some e) = true)
    ∧ (opts.onlyTabbable = false → isFocusable (some e) = true) := by
  rw [getFocusableElements_eq_sort] at he
  rw [mem_sortByTabIndex] at he
  have hpred : enumPred opts e = true := by
    cases container with
    | none => simp [enumPreSortOf] at he
    | some t =>
      cases documentDefined with
      | false => simp [enumPreSortOf] at he
      | true =>
        simp only [enumPreSortOf, Bool.not_true] at he
        cases t with
        | node candidates shadowRoots throws =>
          rw [enumPreSort] at he
          cases throws with
          | true => simp at he
          | false =>
            simp only [Bool.false_eq_true, if_false, List.mem_filter] at he
            exact he.2
  unfold enumPred at hpred
  constructor <;> intro ho <;> simp [ho] at hpred <;> exact hpred

/-- C3 witness: a concrete container whose output element passes the
classifier. -/
theorem C3_enumerator_respects_classifier_witness :
    isFocusable (some { data := { eid := 200, tag := "button" } }) = true :=
  (C3_enumerator_respects_classifier true
    (some (.node [{ data := { eid := 200, tag := "button" } }] [] false)) {}
    { data := { eid := 200, tag := "button" } } (by decide)).2 rfl

/-- C9 --- the enumerator never propagates an exception: a null container
yields `[]`, a non-browser context (`document` undefined) yields `[]`, and a
container whose traversal throws is caught and yields `[]` (the function is
total in the model; the `throws` flag is the caught exception path). -/
theorem C9_enumerator_error_handling :
    (∀ (documentDefined : Bool) (opts : GetFocusableElementsOptions),
      getFocusableElements documentDefined none opts = [])
    ∧ (∀ (container : Option DomTree) (opts : GetFocusableElementsOptions),
      getFocusableElements false container opts = [])
    ∧ (∀ (documentDefined : Bool) (candidates : List Elem)
        (shadowRoots : List DomTree) (opts : GetFocusableElementsOptions),
      getFocusableElements documentDefined
        (some (.node candidates shadowRoots true)) opts = []) := by
  refine ⟨fun _ _ => rfl, fun c opts => ?_, fun dd candidates shadowRoots opts => ?_⟩
  · cases c <;> rfl
  · cases dd with
    | false => rfl
    | true => rw [getFocusableElements, getFocusableElementsTree]; simp

/-- C8 --- the `saveFocus`/`returnFocus` pair produced by
`createFocusManager()` computes, on every input, environment, and slot
state, exactly the same result and state change as the module-level pair;
the only difference is which slot variable the state stands for. -/
theorem C8_manager_matches_default :
    (∀ (documentDefined : Bool) (st : FMState),
      managerSaveFocus documentDefined st = saveFocus documentDefined st)
    ∧ (∀ (documentDefined : Bool) (behavior : FocusBehavior) (body : Option Elem)
        (options : ReturnFocusOptions) (st : FMState),
      managerReturnFocus documentDefined behavior body options st
        = returnFocus documentDefined behavior body options st) :=
  ⟨fun _ _ => rfl, fun _ _ _ _ _ => rfl⟩

/-! ## Concrete elements for scenario checks -/

/-- A button carrying `tabindex="2"`. -/
def elTab2 : Elem :=
  { data := { eid := 1, tag := "button", attrs := [("tabindex", "2")] } }

/-- A button with implicit tab index, first in document order. -/
def elImpA : Elem :=
  { data := { eid := 2, tag := "button" } }

/-- A button carrying `tabindex="1"`. -/
def elTab1 : Elem :=
  { data := { eid := 3, tag := "button", attrs := [("tabindex", "1")] } }

/-- A button with implicit tab index, second in document order. -/
def elImpB : Elem :=
  { data := { eid := 4, tag := "button" } }

/-- A container whose candidates carry tab indices [2, 0 (implicit), 1,
0 (implicit)] in document order. -/
def orderTree : DomTree :=
  .node [elTab2, elImpA, elTab1, elImpB] [] false

/-- C6 --- enumerator ordering.  (i) On candidates with tab indices
[2, implicit, 1, implicit] in document order the output is the index-1
element, the index-2 element, then the two implicit ones in document order.
(ii) In any output, whenever a later element has a positive tab index, every
earlier element also has one that is no larger — positive-index elements
precede the implicit/zero bucket and ascend.  (iii) The implicit/zero bucket
of the output equals, in order, the same bucket of the pre-sort (filtered,
document-order) list. -/
theorem C6_tab_index_ordering :
    (getFocusableElements true (some orderTree) {} = [elTab1, elTab2, elImpA, elImpB])
    ∧ (∀ (documentDefined : Bool) (container : Option DomTree)
        (opts : GetFocusableElementsOptions)
        (i j : Fin (getFocusableElements documentDefined container opts).length),
        (i : Nat) < (j : Nat) →
        gtZero (tabIndexNumber ((getFocusableElements documentDefined container opts).get j))
          = true →
        gtZero (tabIndexNumber ((getFocusableElements documentDefined container opts).get i))
          = true
        ∧ (tabIndexNumber ((getFocusableElements documentDefined container opts).get i)).getD 0
          ≤ (tabIndexNumber ((getFocusableElements documentDefined container opts).get j)).getD 0)
    ∧ (∀ (documentDefined : Bool) (container : Option DomTree)
        (opts : GetFocusableElementsOptions),
        (getFocusableElements documentDefined container opts).filter nonPosKey
          = (enumPreSortOf documentDefined container opts).filter nonPosKey) := by
  refine ⟨by decide, ?_, ?_⟩
  · intro documentDefined container opts i j hij hj
    have hle : keyLe ((getFocusableElements documentDefined container opts).get i)
        ((getFocusableElements documentDefined container opts).get j) = true :=
      List.pairwise_iff_get.mp
        (pairwise_getFocusableElements documentDefined container opts) i j hij
    unfold keyLe at hle
    cases hgi : gtZero (tabIndexNumber ((getFocusableElements documentDefined container opts).get i)) with
    | false => rw [hgi, hj] at hle; simp at hle
    | true =>
      rw [hgi, hj] at hle
      simp at hle
      exact ⟨rfl, hle⟩
  · intro documentDefined container opts
    rw [getFocusableElements_eq_sort, filter_nonPosKey_sortByTabIndex]

/-- C6 witness: parts (ii) and (iii) instantiated on the concrete scenario
container. -/
theorem C6_tab_index_ordering_witness :
    ((0 : Nat) < (1 : Nat)
      ∧ gtZero (tabIndexNumber ((getFocusableElements true (some orderTree) {}).get
          ⟨1, by decide⟩)) = true)
    ∧ (gtZero (tabIndexNumber ((getFocusableElements true (some orderTree) {}).get
          ⟨0, by decide⟩)) = true
      ∧ (tabIndexNumber ((getFocusableElements true (some orderTree) {}).get
          ⟨0, by decide⟩)).getD 0
        ≤ (tabIndexNumber ((getFocusableElements true (some orderTree) {}).get
          ⟨1, by decide⟩)).getD 0)
    ∧ (getFocusableElements true (some orderTree) {}).filter nonPosKey
        = (enumPreSortOf true (some orderTree) {}).filter nonPosKey :=
  ⟨⟨by decide, by decide⟩,
    C6_tab_index_ordering.2.1 true (some orderTree) {} ⟨0, by decide⟩ ⟨1, by decide⟩
      (by decide) (by decide),
    C6_tab_index_ordering.2.2 true (some orderTree) {}⟩

/-! ## Hidden-ancestor propagation -/

/-- A `div` ancestor marked `aria-hidden="true"`. -/
def hiddenAncestor : ElemData :=
  { eid := 300, tag := "div", attrs := [("aria-hidden", "true")] }

/-- A plain button whose parent chain contains `hiddenAncestor`. -/
def buttonUnderHidden : Elem :=
  { data := { eid := 301, tag := "button" }, ancestors := [hiddenAncestor] }

/-- C4 --- an element with any ancestor hidden via the `hidden` attribute,
`display: none`, `visibility: hidden`, or `aria-hidden="true"` is not
focusable, regardless of the element's own markers: every `return true` path
of `isFocusable` sits behind the ancestor walk. -/
theorem C4_hidden_ancestor_blocks_focus (e : Elem) (p : ElemData)
    (hp : p ∈ e.ancestors)
    (hhid : hasAttributeOf p "hidden" = true ∨ p.styleDisplay = "none"
      ∨ p.styleVisibility = "hidden" ∨ getAttributeOf p "aria-hidden" = some "true") :
    isFocusable (some e) = false := by
  have hany : e.ancestors.any ancestorHides = true := by
    refine List.any_eq_true.mpr ⟨p, hp, ?_⟩
    unfold ancestorHides hiddenByAttrOrStyle
    rcases hhid with h | h | h | h <;> simp [h]
  unfold isFocusable
  repeat' split
  any_goals rfl
  all_goals simp_all

/-- C4 witness: a plain button under an `aria-hidden="true"` ancestor. -/
theorem C4_hidden_ancestor_blocks_focus_witness :
    isFocusable (some buttonUnderHidden) = false :=
  C4_hidden_ancestor_blocks_focus buttonUnderHidden hiddenAncestor (by decide)
    (Or.inr (Or.inr (Or.inr (by decide))))

/-! ## `tabindex="-1"` -/

/-- A connected, enabled button carrying `tabindex="-1"` — the canonical
"programmatically focusable, not tabbable" element. -/
def tabNeg1Button : Elem :=
  { data := { eid := 310, tag := "button", attrs := [("tabindex", "-1")] } }

/-- The same button without the attribute. -/
def plainButton : Elem :=
  { data := { eid := 311, tag := "button" } }

/-- C7 counterexample --- the claim's existential half fails at its canonical
input: a plain enabled button, focusable without the attribute, has
`isFocusable = false` once it carries `tabindex="-1"` (isFocusable.ts line
28 returns false before any tag rule runs).  Both predicates reject it. -/
theorem C7_counterexample :
    getAttributeOf tabNeg1Button.data "tabindex" = some "-1"
    ∧ isFocusable (some plainButton) = true
    ∧ isFocusable (some tabNeg1Button) = false
    ∧ isTabbable (some tabNeg1Button) = false := by
  decide

/-- C7 (amended) --- for every element carrying the attribute
`tabindex="-1"`, `isTabbable` returns false and `isFocusable` also returns
false: the two predicates agree (both reject) on such elements rather than
differing on any of them. -/
theorem C7_tabindex_neg1_rejected_by_both (e : Elem)
    (h : getAttributeOf e.data "tabindex" = some "-1") :
    isTabbable (some e) = false ∧ isFocusable (some e) = false := by
  have hf : isFocusable (some e) = false := by
    rw [isFocusable]
    simp [h]
  refine ⟨?_, hf⟩
  unfold isTabbable
  simp [hf]

/-- C7 witness: the amended statement at the canonical element. -/
theorem C7_tabindex_neg1_rejected_by_both_witness :
    isTabbable (some tabNeg1Button) = false ∧ isFocusable (some tabNeg1Button) = false :=
  C7_tabindex_neg1_rejected_by_both tabNeg1Button (by decide)

/-! ## Focus-State Keeper claims -/

/-- The document body, as default fallback element. -/
def bodyElem : Elem :=
  { data := { eid := 320, tag := "body" } }

/-- A behaviour where focusing `plainButton` silently fails (it became
ineligible) while every other focus call succeeds. -/
def behSilentOnPlain : FocusBehavior :=
  fun e => if e == plainButton then .silentFail else .success

/-- A behaviour where every focus call succeeds. -/
def behAllSuccess : FocusBehavior :=
  fun _ => .success

/-- C1 counterexample --- a `returnFocus` call in which the saved element's
focus silently fails and the fallback is focused returns normally with the
slot **still holding the saved element**: the early `return fallbackElement`
at returnFocus.ts line 98 skips the `savedFocusElement = null` at line 115.
The second conjunct states the slot is not empty when the call returns. -/
theorem C1_counterexample :
    returnFocus true behSilentOnPlain (some bodyElem) {}
        { saved := some plainButton, active := none }
      = some (some bodyElem, { saved := some plainButton, active := some bodyElem })
    ∧ (returnFocus true behSilentOnPlain (some bodyElem) {}
        { saved := some plainButton, active := none }).map (fun r => r.2.saved)
      ≠ some none := by
  decide

/-- C1 (amended) --- when `returnFocus` runs with a saved element and
returns: if the saved element's focus attempt verifies (focus succeeded, or
silently "failed" while it was already active), the call returns it and
clears the slot; otherwise the slot is cleared exactly when the call returns
`null` — when the fallback is focused and returned, the slot still holds the
saved element, so a later call will retry the same element. -/
theorem C1_slot_clearing (behavior : FocusBehavior) (body : Option Elem)
    (options : ReturnFocusOptions) (st : FMState) (sv : Elem) (r : Option Elem)
    (st' : FMState) (hsv : st.saved = some sv)
    (hret : returnFocus true behavior body options st = some (r, st')) :
    ((behavior sv = .success ∨ (behavior sv = .silentFail ∧ st.active = some sv)) →
      r = some sv ∧ st'.saved = none)
    ∧ (¬(behavior sv = .success ∨ (behavior sv = .silentFail ∧ st.active = some sv)) →
      st'.saved = if r.isNone then none else some sv) := by
  rw [returnFocus, if_neg (by decide)] at hret
  simp only [hsv] at hret
  rcases hb : behavior sv with _ | _ | _
  · -- success: the attempt sets the active element to sv, verification holds
    simp only [doFocus, hb, beq_self_eq_true, if_true] at hret
    obtain ⟨rfl, rfl⟩ : r = some sv ∧ st' = { saved := none, active := some sv } := by
      simpa [eq_comm] using hret
    simp [hb]
  · -- silentFail: verification holds iff the saved element was already active
    simp only [doFocus, hb] at hret
    by_cases hav : st.active = some sv
    · rw [hav] at hret
      simp only [beq_self_eq_true, if_true] at hret
      obtain ⟨rfl, rfl⟩ : r = some sv ∧ st' = { saved := none, active := some sv } := by
        simpa [eq_comm] using hret
      simp [hb, hav]
    · have hbeq : (st.active == some sv) = false := by simpa using hav
      rw [hbeq] at hret
      simp only [Bool.false_eq_true, if_false] at hret
      rcases hfb : options.fallbackElement.getD body with _ | f <;> rw [hfb] at hret
      · obtain ⟨rfl, rfl⟩ : r = none ∧ st' = { saved := none, active := st.active } := by
          simpa [eq_comm] using hret
        simp [hb, hav]
      · rcases hbf : behavior f with _ | _ | _ <;> simp only [doFocus, hbf] at hret
        · obtain ⟨rfl, rfl⟩ : r = some f ∧ st' = { saved := some sv, active := some f } := by
            simpa [eq_comm] using hret
          simp [hb, hav]
        · obtain ⟨rfl, rfl⟩ : r = some f ∧ st' = { saved := some sv, active := st.active } := by
            simpa [eq_comm] using hret
          simp [hb, hav]
        · obtain ⟨rfl, rfl⟩ : r = none ∧ st' = { saved := none, active := st.active } := by
            simpa [eq_comm] using hret
          simp [hb, hav]
  · -- throws: the catch path tries the fallback; the slot is kept whenever
    -- the fallback is returned
    simp only [doFocus, hb] at hret
    rcases hfb : options.fallbackElement.getD body with _ | f <;> rw [hfb] at hret
    · obtain ⟨rfl, rfl⟩ : r = none ∧ st' = { saved := none, active := st.active } := by
        simpa [eq_comm] using hret
      simp [hb]
    · rcases hbf : behavior f with _ | _ | _ <;> simp only [doFocus, hbf] at hret
      · obtain ⟨rfl, rfl⟩ : r = some f ∧ st' = { saved := some sv, active := some f } := by
          simpa [eq_comm] using hret
        simp [hb]
      · obtain ⟨rfl, rfl⟩ : r = some f ∧ st' = { saved := some sv, active := st.active } := by
          simpa [eq_comm] using hret
        simp [hb]
      · obtain ⟨rfl, rfl⟩ : r = none ∧ st' = { saved := none, active := st.active } := by
          simpa [eq_comm] using hret
        simp [hb]

/-- C1 witness: the amended statement at a verified restore. -/
theorem C1_slot_clearing_witness :
    ({ saved := some plainButton, active := none } : FMState).saved = some plainButton
    ∧ some plainButton = some plainButton
    ∧ ({ saved := none, active := some plainButton } : FMState).saved = none :=
  ⟨rfl,
    (C1_slot_clearing behAllSuccess (some bodyElem) {}
      { saved := some plainButton, active := none } plainButton (some plainButton)
      { saved := none, active := some plainButton } rfl (by decide)).1 (Or.inl rfl)⟩

/-- C2 --- round trip: `saveFocus` while X is active returns X and fills the
slot; a `returnFocus` with no intervening focus change, X still accepting
focus, focuses X, returns X, and empties the slot; an immediately following
second `returnFocus` focuses and returns the fallback element. -/
theorem C2_save_return_round_trip (behavior : FocusBehavior) (st0 : FMState)
    (X F : Elem) (hactive : st0.active = some X) (hX : behavior X ≠ .throws)
    (hF : behavior F = .success) :
    (saveFocus true st0).1 = some X
    ∧ (saveFocus true st0).2 = { saved := some X, active := some X }
    ∧ returnFocus true behavior (some F) {} { saved := some X, active := some X }
      = some (some X, { saved := none, active := some X })
    ∧ returnFocus true behavior (some F) {} { saved := none, active := some X }
      = some (some F, { saved := none, active := some F }) := by
  refine ⟨?_, ?_, ?_, ?_⟩
  · simp [saveFocus, hactive]
  · simp [saveFocus, hactive]
  · unfold returnFocus
    rcases hb : behavior X with _ | _ | _ <;> simp [doFocus, hb]
    exact absurd hb hX
  · unfold returnFocus
    simp [doFocus, hF]

/-- C2 witness: the round trip on a concrete element and fallback. -/
theorem C2_save_return_round_trip_witness :
    ({ saved := none, active := some plainButton } : FMState).active = some plainButton
    ∧ behAllSuccess plainButton ≠ .throws
    ∧ behAllSuccess bodyElem = .success
    ∧ (saveFocus true { saved := none, active := some plainButton }).1 = some plainButton
    ∧ returnFocus true behAllSuccess (some bodyElem) {}
        { saved := some plainButton, active := some plainButton }
      = some (some plainButton, { saved := none, active := some plainButton })
    ∧ returnFocus true behAllSuccess (some bodyElem) {}
        { saved := none, active := some plainButton }
      = some (some bodyElem, { saved := none, active := some bodyElem }) := by
  have h := C2_save_return_round_trip behAllSuccess
    { saved := none, active := some plainButton } plainButton bodyElem rfl
    (by decide) rfl
  exact ⟨rfl, by decide, rfl, h.1, h.2.2.1, h.2.2.2⟩

/-! ## Trap Controller claims -/

theorem handleKeyDown_tab_eq (t : DomTree) (hasOnEscapeKey shiftKey : Bool)
    (activeElement : Option Elem) :
    handleKeyDown true (some t) hasOnEscapeKey "Tab" shiftKey activeElement =
      (match getFocusableElements true (some t) { onlyTabbable := true } with
       | [] => { defaultPrevented := true, focused := some .container }
       | firstElement :: rest =>
         if shiftKey then
           if activeElement == some firstElement then
             { defaultPrevented := true,
               focused := some (.elem ((firstElement :: rest).getLast
                 (List.cons_ne_nil _ _))) }
           else {}
         else
           if activeElement == some ((firstElement :: rest).getLast
               (List.cons_ne_nil _ _)) then
             { defaultPrevented := true, focused := some (.elem firstElement) }
           else {} : KeydownResult) :=
  rfl

/-- C5 --- Tab handling of the active trap: with no tabbable elements the
handler prevents default and focuses the container; Shift+Tab on the first
tabbable element prevents default and focuses the last; Tab on the last
prevents default and focuses the first; every other Tab press is left to
native behaviour (no preventDefault, no focus call). -/
theorem C5_tab_wraparound (t : DomTree) (hasOnEscapeKey shiftKey : Bool)
    (activeElement : Option Elem) :
    (getFocusableElements true (some t) { onlyTabbable := true } = [] →
      handleKeyDown true (some t) hasOnEscapeKey "Tab" shiftKey activeElement
        = { defaultPrevented := true, focused := some .container })
    ∧ (∀ (firstElement : Elem) (rest : List Elem),
        getFocusableElements true (some t) { onlyTabbable := true }
          = firstElement :: rest →
        (shiftKey = true → activeElement = some firstElement →
          handleKeyDown true (some t) hasOnEscapeKey "Tab" shiftKey activeElement
            = { defaultPrevented := true,
                focused := some (.elem ((firstElement :: rest).getLast
                  (List.cons_ne_nil _ _))) })
        ∧ (shiftKey = true → activeElement ≠ some firstElement →
          handleKeyDown true (some t) hasOnEscapeKey "Tab" shiftKey activeElement = {})
        ∧ (shiftKey = false →
            activeElement = some ((firstElement :: rest).getLast (List.cons_ne_nil _ _)) →
          handleKeyDown true (some t) hasOnEscapeKey "Tab" shiftKey activeElement
            = { defaultPrevented := true, focused := some (.elem firstElement) })
        ∧ (shiftKey = false →
            activeElement ≠ some ((firstElement :: rest).getLast (List.cons_ne_nil _ _)) →
          handleKeyDown true (some t) hasOnEscapeKey "Tab" shiftKey activeElement = {})) := by
  constructor
  · intro hempty
    rw [handleKeyDown_tab_eq, hempty]
  · intro firstElement rest hlist
    refine ⟨?_, ?_, ?_, ?_⟩ <;> intro hs ha <;>
      rw [handleKeyDown_tab_eq, hlist] <;> subst hs <;>
      simp only [if_true, Bool.false_eq_true, if_false] <;>
      simp [ha]

/-- Two tabbable buttons for trap scenarios, A first and B last. -/
def trapBtnA : Elem :=
  { data := { eid := 400, tag := "button" } }

/-- Second trap button. -/
def trapBtnB : Elem :=
  { data := { eid := 401, tag := "button" } }

/-- A container holding exactly the two tabbable buttons. -/
def trapTree : DomTree :=
  .node [trapBtnA, trapBtnB] [] false

/-- C5 witness: the wrap-around scenario — Shift+Tab on A focuses B. -/
theorem C5_tab_wraparound_witness :
    getFocusableElements true (some trapTree) { onlyTabbable := true }
      = [trapBtnA, trapBtnB]
    ∧ handleKeyDown true (some trapTree) false "Tab" true (some trapBtnA)
      = { defaultPrevented := true,
          focused := some (.elem ((trapBtnA :: [trapBtnB]).getLast
            (List.cons_ne_nil _ _))) } :=
  ⟨by decide,
    ((C5_tab_wraparound trapTree false true (some trapBtnA)).2 trapBtnA [trapBtnB]
      (by decide)).1 rfl rfl⟩

/-! ## First-Focus Director claims -/

theorem bySelectorLoop_verified (behavior : FocusBehavior) (l : List Elem) :
    ∀ (active a' : Option Elem) (r : Elem),
      bySelectorLoop behavior l active = (some r, a') → a' = some r := by
  induction l with
  | nil =>
    intro active a' r h
    simp [bySelectorLoop] at h
  | cons e rest ih =>
    intro active a' r h
    rw [bySelectorLoop] at h
    rcases hb : behavior e with _ | _ | _ <;> rw [hb] at h
    · obtain ⟨h1, h2⟩ : some e = some r ∧ some e = a' := by simpa using h
      rw [← h2, h1]
    · by_cases hae : active = some e
      · rw [if_pos (by simpa using hae)] at h
        obtain ⟨h1, h2⟩ : some e = some r ∧ active = a' := by simpa using h
        rw [← h2, hae, h1]
      · rw [if_neg (by simpa using hae)] at h
        exact ih active a' r h
    · exact ih active a' r h

/-- C10 --- asymmetry of the two directors.  `focusFirstElement` reports the
first enumerated element whenever its `focus()` does not throw, without
re-reading the active element — on a silent failure it still returns the
element while the active element is unchanged.  `focusFirstElementBySelector`
returns an element only when the active element verifiably equals it, and a
throwing candidate is skipped in favour of the rest. -/
theorem C10_focus_first_verification :
    (∀ (behavior : FocusBehavior) (t : DomTree) (options : FocusFirstElementOptions)
        (active : Option Elem) (e : Elem) (rest : List Elem),
      getFocusableElements true (some t)
          { onlyTabbable := options.onlyTabbable,
            includeShadowDOM := options.includeShadowDOM } = e :: rest →
      behavior e ≠ .throws →
      (focusFirstElement true behavior (some t) options active).1 = some e)
    ∧ (∀ (behavior : FocusBehavior) (t : DomTree) (options : FocusFirstElementOptions)
        (active : Option Elem) (e : Elem) (rest : List Elem),
      getFocusableElements true (some t)
          { onlyTabbable := options.onlyTabbable,
            includeShadowDOM := options.includeShadowDOM } = e :: rest →
      behavior e = .silentFail →
      focusFirstElement true behavior (some t) options active = (some e, active))
    ∧ (∀ (behavior : FocusBehavior) (containerPresent : Bool) (selector : String)
        (queryResult : Except Unit (List Elem)) (active a' : Option Elem) (r : Elem),
      focusFirstElementBySelector true behavior containerPresent selector
          queryResult active = (some r, a') →
      a' = some r)
    ∧ (∀ (behavior : FocusBehavior) (e : Elem) (rest : List Elem)
        (active : Option Elem),
      behavior e = .throws →
      bySelectorLoop behavior (e :: rest) active = bySelectorLoop behavior rest active) := by
  refine ⟨?_, ?_, ?_, ?_⟩
  · intro behavior t options active e rest hlist hb
    rw [focusFirstElement]
    rw [if_neg (by decide), hlist]
    rcases hb2 : behavior e with _ | _ | _ <;> simp [hb2] at hb ⊢
  · intro behavior t options active e rest hlist hb
    rw [focusFirstElement]
    rw [if_neg (by decide), hlist]
    simp [hb]
  · intro behavior containerPresent selector queryResult active a' r h
    rw [focusFirstElementBySelector.eq_def] at h
    by_cases hc : (!containerPresent || selector == "") = true
    · rw [if_pos hc] at h
      simp at h
    · rw [if_neg hc, if_neg (by decide)] at h
      rcases queryResult with _ | elements
      · simp at h
      · exact bySelectorLoop_verified behavior elements active a' r h
  · intro behavior e rest active hb
    rw [bySelectorLoop, hb]

/-- C10 witness: a silently failing first focus is still reported by
`focusFirstElement`, while `focusFirstElementBySelector` only reports the
verified element. -/
theorem C10_focus_first_verification_witness :
    focusFirstElement true (fun _ => .silentFail) (some trapTree) {} none
      = (some trapBtnA, none)
    ∧ some trapBtnA = some trapBtnA :=
  ⟨C10_focus_first_verification.2.1 (fun _ => .silentFail) trapTree {} none trapBtnA
      [trapBtnB] (by decide) rfl,
    C10_focus_first_verification.2.2.1 behAllSuccess true "button"
      (.ok [trapBtnA]) none (some trapBtnA) trapBtnA (by decide)⟩

end FocusManagement
